import Mathlib

/-!
Verification of the chicago-lots pipeline against its specification.

This file shallowly embeds the parts of the repository that the claims
touch:

* `src/database/pin_database.py` — the SQLite-backed store `PINDatabase`
  with tables `pins` and `post_history`, and its operations `add_pin`,
  `get_next_unposted`, `mark_posted`, `record_error`, `get_statistics`.
* `src/image/street_view.py` — the geocoding retry loop `get_location`
  and the image filename construction of `process_location`.
* `src/social/bluesky.py` — `BlueskyClient.post` with lazy
  authentication, optional image upload, and record creation.
* `src/__main__.py` — the per-record body of the orchestrator loop.

Modelling conventions: the no-I/O-failure model is used throughout (the
Python code catches `sqlite3.Error` and network errors; those branches
are storage faults outside the claims). SQLite REAL columns are carried
as rationals, TIMESTAMP values as naturals; neither is computed with.
The `pins` table is a list of rows; `TEXT` ordering (`ORDER BY pin`,
BINARY collation, i.e. byte comparison) is the lexicographic order on
`String.data`. External services (geocoder, imagery, Bluesky endpoints)
are passed in as explicit functions describing their responses.
-/

namespace ChicagoLots

/-- A row of the `pins` table: `pin TEXT PRIMARY KEY, address TEXT NOT
NULL, latitude REAL, longitude REAL, posted INTEGER DEFAULT 0,
post_date TIMESTAMP, error_count INTEGER DEFAULT 0, last_error TEXT`. -/
structure PinRow where
  pin : String
  address : String
  latitude : Option ℚ
  longitude : Option ℚ
  posted : Bool
  post_date : Option Nat
  error_count : Nat
  last_error : Option String
deriving DecidableEq

/-- A row of the `post_history` table. The AUTOINCREMENT primary key is
the position in the list; the other columns are carried explicitly. -/
structure HistoryRow where
  pin : String
  post_date : Nat
  post_id : Option String
  image_path : Option String
deriving DecidableEq

/-- The durable store: both tables of the SQLite database. -/
structure PINDatabase where
  pins : List PinRow
  post_history : List HistoryRow
deriving DecidableEq

/-- `PINDatabase.add_pin`: `INSERT OR REPLACE INTO pins (pin, address,
latitude, longitude) VALUES (?, ?, ?, ?)`. On a primary-key conflict
SQLite deletes the old row and inserts the new one with the column
defaults for the unnamed columns (`posted` 0, `error_count` 0, the rest
NULL). Returns `True` (the `False` branch is a storage fault). -/
def add_pin (db : PINDatabase) (pin address : String) (lat lon : Option ℚ) :
    PINDatabase × Bool :=
  ({ db with pins := db.pins.filter (fun r => !(r.pin == pin)) ++
      [{ pin := pin, address := address, latitude := lat, longitude := lon,
         posted := false, post_date := none, error_count := 0, last_error := none }] },
   true)

/-- `PINDatabase.mark_posted`: `UPDATE pins SET posted = 1, post_date =
? WHERE pin = ?` followed unconditionally by `INSERT INTO post_history
(pin, post_date, post_id, image_path) VALUES (?, ?, ?, ?)`; returns
`True`. There is no uniqueness constraint on `post_history.pin` and
foreign keys are off by default in sqlite3, so both statements succeed
for any `pin`. -/
def mark_posted (db : PINDatabase) (pin post_id image_path : String) (now : Nat) :
    PINDatabase × Bool :=
  ({ pins := db.pins.map (fun r =>
        if r.pin == pin then { r with posted := true, post_date := some now } else r),
     post_history := db.post_history ++
        [{ pin := pin, post_date := now, post_id := some post_id,
           image_path := some image_path }] },
   true)

/-- `PINDatabase.record_error`: `UPDATE pins SET error_count =
error_count + 1, last_error = ? WHERE pin = ?`; returns `True`. -/
def record_error (db : PINDatabase) (pin error_message : String) :
    PINDatabase × Bool :=
  ({ db with pins := db.pins.map (fun r =>
        if r.pin == pin then
          { r with error_count := r.error_count + 1, last_error := some error_message }
        else r) },
   true)

/-- The `WHERE posted = 0 AND error_count < 3` filter of
`get_next_unposted`. -/
def eligibleRow (r : PinRow) : Bool :=
  !r.posted && decide (r.error_count < 3)

/-- `ORDER BY pin` on a TEXT column under the default BINARY collation:
lexicographic byte comparison, embedded as the lexicographic order on
the character list of the pin. -/
def pinDataLe (a b : PinRow) : Prop := a.pin.data ≤ b.pin.data

instance : DecidableRel pinDataLe :=
  fun a b => inferInstanceAs (Decidable (a.pin.data ≤ b.pin.data))

instance : IsTotal PinRow pinDataLe := ⟨fun a b => le_total a.pin.data b.pin.data⟩

instance : IsTrans PinRow pinDataLe := ⟨fun _ _ _ hab hbc => le_trans hab hbc⟩

/-- The dictionary built by `get_next_unposted` for each selected row:
keys `pin`, `address`, `latitude`, `longitude`. -/
structure UnpostedRow where
  pin : String
  address : String
  latitude : Option ℚ
  longitude : Option ℚ
deriving DecidableEq

/-- Projection of a `pins` row to the `SELECT pin, address, latitude,
longitude` result dictionary. -/
def toUnposted (r : PinRow) : UnpostedRow :=
  { pin := r.pin, address := r.address, latitude := r.latitude, longitude := r.longitude }

/-- `PINDatabase.get_next_unposted`: `SELECT pin, address, latitude,
longitude FROM pins WHERE posted = 0 AND error_count < 3 ORDER BY pin
LIMIT ?`. -/
def get_next_unposted (db : PINDatabase) (batch_size : Nat) : List UnpostedRow :=
  (((db.pins.filter eligibleRow).insertionSort pinDataLe).take batch_size).map toUnposted

/-- The Python exception raised by `row[0] - row[1]` when `row[1]` is
`None`; it is not a `sqlite3.Error`, so `get_statistics` does not catch
it and it propagates to the caller. -/
inductive PyError where
  | typeError
deriving DecidableEq

/-- The dictionary returned by `get_statistics`. -/
structure PinStats where
  total_pins : Int
  posted_count : Int
  failed_count : Int
  remaining : Int
deriving DecidableEq

/-- SQL `SUM(expr)` over the `pins` table: `NULL` (here `none`) when
the table has no rows, otherwise the sum of the expression. -/
def sqlSum (f : PinRow → Int) (rows : List PinRow) : Option Int :=
  match rows with
  | [] => none
  | _ => some ((rows.map f).sum)

/-- `PINDatabase.get_statistics`: `SELECT COUNT(*), SUM(CASE WHEN
posted = 1 THEN 1 ELSE 0 END), SUM(CASE WHEN error_count >= 3 THEN 1
ELSE 0 END) FROM pins`, then `remaining = row[0] - row[1] - row[2]` in
Python. On an empty table both sums are `NULL`/`None` and the
subtraction raises `TypeError`, which the `except sqlite3.Error`
handler does not catch. -/
def get_statistics (db : PINDatabase) : Except PyError PinStats :=
  match sqlSum (fun r => if r.posted then 1 else 0) db.pins,
        sqlSum (fun r => if 3 ≤ r.error_count then 1 else 0) db.pins with
  | some p, some f =>
      .ok { total_pins := (db.pins.length : Int), posted_count := p, failed_count := f,
            remaining := (db.pins.length : Int) - p - f }
  | _, _ => .error .typeError

/-- First row of `pins` matching a pin (the pin is the primary key, so
at most one row matches in any reachable store). -/
def findRow (db : PINDatabase) (pin : String) : Option PinRow :=
  db.pins.find? (fun r => r.pin == pin)

/-- Number of `post_history` rows carrying a given pin. -/
def countHist (db : PINDatabase) (pin : String) : Nat :=
  db.post_history.countP (fun h => h.pin == pin)

/-- One mutating call on the store, for reasoning about sequences of
operations. -/
inductive StoreOp where
  | addPin (pin address : String) (lat lon : Option ℚ)
  | markPosted (pin post_id image_path : String) (now : Nat)
  | recordError (pin error_message : String)
deriving DecidableEq

/-- Apply one store operation (dropping the boolean status, which is
always `True` in the no-I/O-failure model). -/
def applyOp (db : PINDatabase) : StoreOp → PINDatabase
  | .addPin pin address lat lon => (add_pin db pin address lat lon).1
  | .markPosted pin post_id image_path now => (mark_posted db pin post_id image_path now).1
  | .recordError pin msg => (record_error db pin msg).1

/-- Apply a sequence of store operations in order. -/
def applyOps (db : PINDatabase) (ops : List StoreOp) : PINDatabase :=
  ops.foldl applyOp db

/-- Whether an operation is one of the two outcome-recording calls of
the specification (`recordSuccess` / `recordError`), as opposed to the
`add_pin` import path. -/
def StoreOp.isRecordOp : StoreOp → Bool
  | .addPin .. => false
  | .markPosted .. => true
  | .recordError .. => true

/-- Outcome of one `self.geolocator.geocode(address)` call in
`StreetViewClient.get_location`, indexed by the attempt number: a
`Location` with coordinates, a `None` result, a `GeocoderTimedOut`, a
`GeocoderUnavailable`, or any other exception. -/
inductive GeoOutcome where
  | success (latitude longitude : ℚ)
  | noResult
  | timedOut
  | unavailable
  | otherError
deriving DecidableEq

/-- Observable result of `StreetViewClient.get_location`: the returned
value (`None` on failure), the number of geocode calls performed, the
`time.sleep` durations in order, and the final failure log line
`"Failed to geocode address after {retries} attempts: {address}"`
modelled as the pair it carries (address, retries). -/
structure GeoResult where
  result : Option (ℚ × ℚ)
  attempts : Nat
  sleeps : List Nat
  failure_log : Option (String × Nat)
deriving DecidableEq

/-- The `for attempt in range(retries)` loop body of `get_location`,
by remaining iterations (`fuel = retries - attempt`): on a `Location`
return it; on a `None` result `time.sleep(1)` and continue; on
`GeocoderTimedOut` `time.sleep(2 ** attempt)` and continue; on
`GeocoderUnavailable` or any other exception `break`. Returns the
result, the number of geocode calls made, and the sleeps in order. -/
def getLocationLoop (geocoder : Nat → GeoOutcome) (attempt : Nat) :
    Nat → Option (ℚ × ℚ) × Nat × List Nat
  | 0 => (none, 0, [])
  | fuel + 1 =>
    match geocoder attempt with
    | .success lat lon => (some (lat, lon), 1, [])
    | .noResult =>
        let rest := getLocationLoop geocoder (attempt + 1) fuel
        (rest.1, rest.2.1 + 1, 1 :: rest.2.2)
    | .timedOut =>
        let rest := getLocationLoop geocoder (attempt + 1) fuel
        (rest.1, rest.2.1 + 1, 2 ^ attempt :: rest.2.2)
    | .unavailable => (none, 1, [])
    | .otherError => (none, 1, [])

/-- `StreetViewClient.get_location(address, retries)`: run the retry
loop from attempt 0; when no `Location` was returned, log the failure
line carrying the address and the attempt count and return `None`. -/
def get_location (geocoder : Nat → GeoOutcome) (address : String) (retries : Nat) :
    GeoResult :=
  let r := getLocationLoop geocoder 0 retries
  { result := r.1, attempts := r.2.1, sleeps := r.2.2,
    failure_log := if r.1.isNone then some (address, retries) else none }

/-- A `datetime.datetime` value as produced by `datetime.now()`:
microsecond precision. -/
structure PyDatetime where
  year : Nat
  month : Nat
  day : Nat
  hour : Nat
  minute : Nat
  second : Nat
  microsecond : Nat
deriving DecidableEq

/-- Zero-padding to two digits, as `%m %d %H %M %S` render in-range
field values. -/
def pad2 (n : Nat) : String :=
  if n < 10 then "0" ++ toString n else toString n

/-- `datetime.strftime('%Y%m%d_%H%M%S')`: the microsecond field is
discarded by this format string. -/
def strftimeCompact (t : PyDatetime) : String :=
  toString t.year ++ pad2 t.month ++ pad2 t.day ++ "_" ++
    pad2 t.hour ++ pad2 t.minute ++ pad2 t.second

/-- The filename built by `StreetViewClient.process_location`:
`f"{pin}_{timestamp}.jpg"` with `timestamp =
datetime.now().strftime('%Y%m%d_%H%M%S')`. -/
def image_filename (pin : String) (t : PyDatetime) : String :=
  pin ++ "_" ++ strftimeCompact t ++ ".jpg"

/-- `os.path.join(self.save_dir, filename)` as used by
`process_location` on POSIX paths. -/
def image_save_path (save_dir pin : String) (t : PyDatetime) : String :=
  save_dir ++ "/" ++ image_filename pin t

/-- The post record dictionary built by `BlueskyClient.post`: `$type`
is constant, `text` and `createdAt` are carried, and `embed` is the
optional uploaded blob reference (wrapped with the constant alt text
"Street View image of property"). -/
structure PostRecord where
  text : String
  createdAt : String
  embed : Option String
deriving DecidableEq

/-- Result of `BlueskyClient.post`: either the raised
`BlueskyError("Authentication failed")`, or a completed call returning
the post URI (`None` when `createRecord` did not return 200) together
with the record that was submitted. -/
inductive PostResult where
  | authFailure
  | completed (uri : Option String) (record : PostRecord)
deriving DecidableEq

/-- `BlueskyClient.post(text, image_path)`. `auth_token` is the
session state on entry; `auth_succeeds` is what `self._authenticate()`
would return; `upload` is `self._upload_image` (`none` = upload failed,
which the code recovers from by posting text-only); `create_record` is
the `com.atproto.repo.createRecord` call (`none` = non-200). The guard
`if not self.auth_token and not self._authenticate()` raises
`BlueskyError`; otherwise the record is built, the image embed is added
only when the upload returned a blob, and the record is submitted. -/
def post (auth_token : Option String) (auth_succeeds : Bool)
    (upload : String → Option String) (create_record : PostRecord → Option String)
    (now text : String) (image_path : Option String) : PostResult :=
  if auth_token.isNone && !auth_succeeds then .authFailure
  else
    let base : PostRecord := { text := text, createdAt := now, embed := none }
    let record :=
      match image_path with
      | none => base
      | some p =>
        match upload p with
        | some blob => { base with embed := some blob }
        | none => base
    .completed (create_record record) record

/-- `BlueskyClient.format_post(pin, address)`:
`f"{address}\nPIN: {pin}"`. -/
def format_post (pin address : String) : String :=
  address ++ "\n" ++ "PIN: " ++ pin

/-- How one property record fares inside the per-record `try` block of
the orchestrator loop in `__main__.main`: `process_location` returned
status `error` with a message; the image succeeded but `bluesky.post`
returned `None`; the post succeeded with a URI and image path; or an
exception escaped to the per-record handler. -/
inductive RecOutcome where
  | imageFailure (msg : String)
  | postFailure
  | postSuccess (uri image_path : String)
  | unexpectedExn (msg : String)
deriving DecidableEq

/-- Observable store calls and pauses made by the orchestrator loop
body, in order. -/
inductive LoopEvent where
  | recordError (pin msg : String)
  | markPosted (pin uri image_path : String)
  | sleepFor (seconds : Nat)
deriving DecidableEq

/-- The body of `for prop in properties` in `__main__.main` for one
record. On an image failure the code calls `db.record_error` and then
`continue`, which jumps to the next iteration and skips the
`time.sleep(post_interval)` at the end of the loop body; every other
path falls through to the sleep. -/
def processRecord (pin : String) (outcome : RecOutcome) (post_interval : Nat) :
    List LoopEvent :=
  match outcome with
  | .imageFailure msg => [.recordError pin msg]
  | .postFailure => [.recordError pin "Failed to create Bluesky post", .sleepFor post_interval]
  | .postSuccess uri path => [.markPosted pin uri path, .sleepFor post_interval]
  | .unexpectedExn msg => [.recordError pin msg, .sleepFor post_interval]

/-- The whole `for prop in properties` loop: concatenation of each
record's events in batch order. -/
def processBatch (props : List (String × RecOutcome)) (post_interval : Nat) :
    List LoopEvent :=
  props.flatMap (fun pr => processRecord pr.1 pr.2 post_interval)

/-- Whether an outcome takes the image-failure `continue` path. -/
def RecOutcome.isImageFailure : RecOutcome → Bool
  | .imageFailure _ => true
  | _ => false

/-- Whether an event trace contains a pacing pause. -/
def hasSleep (events : List LoopEvent) : Bool :=
  events.any (fun e => match e with | .sleepFor _ => true | _ => false)

/-- A freshly imported, eligible row with pin "A". -/
def rowA : PinRow :=
  { pin := "A", address := "1 A St", latitude := none, longitude := none,
    posted := false, post_date := none, error_count := 0, last_error := none }

/-- A freshly imported, eligible row with pin "B". -/
def rowB : PinRow := { rowA with pin := "B", address := "2 B St" }

/-- A freshly imported, eligible row with pin "C". -/
def rowC : PinRow := { rowA with pin := "C", address := "3 C St" }

/-- A store holding three eligible rows, deliberately out of pin
order. -/
def exampleStore3 : PINDatabase := { pins := [rowC, rowA, rowB], post_history := [] }

/-- A store holding the single eligible row "A". -/
def exampleStore1 : PINDatabase := { pins := [rowA], post_history := [] }

/-- Row "A" in its terminal success state. -/
def rowPosted : PinRow := { rowA with posted := true, post_date := some 5 }

/-- A store where "A" has been posted and has its one history entry. -/
def exampleStoreTerminal : PINDatabase :=
  { pins := [rowPosted],
    post_history := [{ pin := "A", post_date := 5, post_id := some "u", image_path := some "p" }] }

/-- A `datetime.now()` value at the start of a wall-clock second. -/
def sameSecondEarly : PyDatetime := ⟨2024, 1, 1, 12, 0, 0, 0⟩

/-- A distinct `datetime.now()` value inside the same wall-clock
second. -/
def sameSecondLate : PyDatetime := ⟨2024, 1, 1, 12, 0, 0, 500000⟩

end ChicagoLots

namespace ChicagoLots

/-- The `WHERE` clause of `get_next_unposted`, spelled out. -/
lemma eligibleRow_iff (r : PinRow) :
    eligibleRow r = true ↔ (r.posted = false ∧ r.error_count < 3) := by
  simp [eligibleRow]

/-- Every dictionary returned by `get_next_unposted` comes from an
eligible row of the table. -/
lemma mem_get_next_unposted {db : PINDatabase} {n : Nat} {d : UnpostedRow}
    (hd : d ∈ get_next_unposted db n) :
    ∃ r, r ∈ db.pins ∧ eligibleRow r = true ∧ toUnposted r = d := by
  obtain ⟨a, ha, rfl⟩ := List.mem_map.mp hd
  have ha2 : a ∈ (db.pins.filter eligibleRow).insertionSort pinDataLe :=
    List.mem_of_mem_take ha
  have ha3 : a ∈ db.pins.filter eligibleRow :=
    (List.perm_insertionSort pinDataLe _).mem_iff.mp ha2
  exact ⟨a, (List.mem_filter.mp ha3).1, (List.mem_filter.mp ha3).2, rfl⟩

/-- The pins of a `get_next_unposted` batch are in ascending byte
order. -/
lemma sorted_get_next_unposted (db : PINDatabase) (n : Nat) :
    List.Sorted (· ≤ ·) ((get_next_unposted db n).map (fun d => d.pin.data)) := by
  have hs : List.Sorted pinDataLe ((db.pins.filter eligibleRow).insertionSort pinDataLe) :=
    List.sorted_insertionSort pinDataLe _
  have ht : List.Sorted pinDataLe
      (((db.pins.filter eligibleRow).insertionSort pinDataLe).take n) :=
    List.Pairwise.sublist (List.take_sublist n _) hs
  have hm : List.Pairwise (fun x y : UnpostedRow => x.pin.data ≤ y.pin.data)
      ((((db.pins.filter eligibleRow).insertionSort pinDataLe).take n).map toUnposted) :=
    List.Pairwise.map toUnposted (fun a b (h : pinDataLe a b) => h) ht
  have := List.Pairwise.map (fun d : UnpostedRow => d.pin.data) (fun a b h => h) hm
  simpa [get_next_unposted, List.Sorted, List.map_map, List.map_take, Function.comp] using this

/-- `LIMIT ?` bounds the batch length. -/
lemma length_get_next_unposted (db : PINDatabase) (n : Nat) :
    (get_next_unposted db n).length ≤ n := by
  simp only [get_next_unposted, List.length_map]
  exact List.length_take_le n _

/-- Any eligible row left out of a batch has a strictly larger pin
than every batch member: the batch is the `n` smallest eligible
pins. -/
lemma smallest_get_next_unposted {db : PINDatabase} {n : Nat} {r : PinRow}
    (hr : r ∈ db.pins) (helig : eligibleRow r = true)
    (hnotin : r.pin ∉ (get_next_unposted db n).map UnpostedRow.pin)
    {d : UnpostedRow} (hd : d ∈ get_next_unposted db n) :
    d.pin.data < r.pin.data := by
  set l := (db.pins.filter eligibleRow).insertionSort pinDataLe with hl
  obtain ⟨a, ha, rfl⟩ := List.mem_map.mp hd
  have hrl : r ∈ l := (List.perm_insertionSort pinDataLe _).mem_iff.mpr
    (List.mem_filter.mpr ⟨hr, helig⟩)
  have hsplit : r ∈ l.take n ∨ r ∈ l.drop n := by
    rw [← List.mem_append, List.take_append_drop]
    exact hrl
  rcases hsplit with htk | hdp
  · exact absurd (List.mem_map.mpr ⟨toUnposted r, List.mem_map.mpr ⟨r, htk, rfl⟩, rfl⟩) hnotin
  · have hle : pinDataLe a r :=
      (List.sorted_insertionSort pinDataLe _).rel_of_mem_take_of_mem_drop ha hdp
    have hne : (toUnposted a).pin.data ≠ r.pin.data := by
      intro heq
      exact hnotin (List.mem_map.mpr ⟨toUnposted a, hd, by
        show (toUnposted a).pin = r.pin
        exact String.ext heq⟩)
    exact lt_of_le_of_ne hle hne

/-- `find?` by pin commutes with mapping a pin-preserving row update
over the table. -/
lemma find?_map_pin_preserving (l : List PinRow) (f : PinRow → PinRow) (pin : String)
    (hf : ∀ r, (f r).pin = r.pin) :
    (l.map f).find? (fun r => r.pin == pin) = (l.find? (fun r => r.pin == pin)).map f := by
  induction l with
  | nil => rfl
  | cons a l ih =>
    simp only [List.map_cons, List.find?_cons, hf a]
    cases h : (a.pin == pin) with
    | true => rfl
    | false => exact ih

/-- `mark_posted` and `record_error` are pointwise `UPDATE`s of the
`pins` table: the table is mapped by a function that preserves the
pin, never lowers `error_count`, and never clears `posted`. -/
lemma map_pin_applyOp_record (db : PINDatabase) (op : StoreOp)
    (hop : op.isRecordOp = true) :
    ∃ f : PinRow → PinRow, (applyOp db op).pins = db.pins.map f ∧
      (∀ r, (f r).pin = r.pin) ∧
      (∀ r, r.error_count ≤ (f r).error_count) ∧
      (∀ r, r.posted = true → (f r).posted = true) := by
  cases op with
  | addPin pin address lat lon => simp [StoreOp.isRecordOp] at hop
  | markPosted pin post_id image_path now =>
    refine ⟨fun r => if r.pin == pin then { r with posted := true, post_date := some now } else r,
      rfl, ?_, ?_, ?_⟩
    · intro r; dsimp only; split <;> rfl
    · intro r; dsimp only; split <;> simp
    · intro r hp; dsimp only; split <;> simp [hp]
  | recordError pin msg =>
    refine ⟨fun r => if r.pin == pin then
        { r with error_count := r.error_count + 1, last_error := some msg } else r,
      rfl, ?_, ?_, ?_⟩
    · intro r; dsimp only; split <;> rfl
    · intro r; dsimp only; split <;> simp
    · intro r hp; dsimp only; split <;> simp [hp]

/-- One record operation transforms the row found for a pin
monotonically. -/
lemma findRow_applyOp_record (db : PINDatabase) (op : StoreOp) (pin : String) (r : PinRow)
    (hop : op.isRecordOp = true) (hr : findRow db pin = some r) :
    ∃ r2, findRow (applyOp db op) pin = some r2 ∧ r2.pin = r.pin ∧
      r.error_count ≤ r2.error_count ∧ (r.posted = true → r2.posted = true) := by
  obtain ⟨f, hpins, hfpin, hfec, hfpost⟩ := map_pin_applyOp_record db op hop
  refine ⟨f r, ?_, hfpin r, hfec r, hfpost r⟩
  rw [findRow, hpins, find?_map_pin_preserving _ _ _ hfpin]
  rw [findRow] at hr
  rw [hr]
  rfl

/-- A sequence of record operations transforms the row found for a pin
monotonically. -/
lemma findRow_applyOps_record (ops : List StoreOp) (db : PINDatabase) (pin : String) (r : PinRow)
    (hops : ∀ op ∈ ops, op.isRecordOp = true) (hr : findRow db pin = some r) :
    ∃ r2, findRow (applyOps db ops) pin = some r2 ∧ r2.pin = r.pin ∧
      r.error_count ≤ r2.error_count ∧ (r.posted = true → r2.posted = true) := by
  induction ops generalizing db r with
  | nil => exact ⟨r, hr, rfl, le_refl _, fun h => h⟩
  | cons op ops ih =>
    obtain ⟨r1, hr1, hpin1, hec1, hpost1⟩ :=
      findRow_applyOp_record db op pin r (hops op (List.mem_cons_self op ops)) hr
    obtain ⟨r2, hr2, hpin2, hec2, hpost2⟩ :=
      ih (applyOp db op) r1 (fun o ho => hops o (List.mem_cons_of_mem op ho)) hr1
    exact ⟨r2, hr2, hpin2.trans hpin1, hec1.trans hec2, fun h => hpost2 (hpost1 h)⟩

/-- Record operations preserve the primary-key distinctness of
pins. -/
lemma nodup_pins_applyOp_record (db : PINDatabase) (op : StoreOp)
    (hop : op.isRecordOp = true) (hnd : (db.pins.map PinRow.pin).Nodup) :
    ((applyOp db op).pins.map PinRow.pin).Nodup := by
  obtain ⟨f, hpins, hfpin, -, -⟩ := map_pin_applyOp_record db op hop
  rw [hpins, List.map_map]
  have : (PinRow.pin ∘ f) = PinRow.pin := funext (fun r => hfpin r)
  rw [this]
  exact hnd

/-- Sequences of record operations preserve the primary-key
distinctness of pins. -/
lemma nodup_pins_applyOps_record (ops : List StoreOp) (db : PINDatabase)
    (hops : ∀ op ∈ ops, op.isRecordOp = true) (hnd : (db.pins.map PinRow.pin).Nodup) :
    ((applyOps db ops).pins.map PinRow.pin).Nodup := by
  induction ops generalizing db with
  | nil => exact hnd
  | cons op ops ih =>
    exact ih (applyOp db op) (fun o ho => hops o (List.mem_cons_of_mem op ho))
      (nodup_pins_applyOp_record db op (hops op (List.mem_cons_self op ops)) hnd)

/-- A terminal row fails the `WHERE posted = 0 AND error_count < 3`
filter. -/
lemma not_eligible_of_terminal {r : PinRow} (hterm : r.posted = true ∨ 3 ≤ r.error_count) :
    eligibleRow r = false := by
  rcases hterm with hp | he
  · simp [eligibleRow, hp]
  · simp [eligibleRow, Nat.not_lt.mpr he]

/-- A pin whose row is terminal never appears in a `get_next_unposted`
batch (pins are distinct, so its row is the only candidate). -/
lemma terminal_not_in_unposted {db : PINDatabase} {pin : String} {r : PinRow}
    (hnd : (db.pins.map PinRow.pin).Nodup)
    (hr : findRow db pin = some r) (hterm : r.posted = true ∨ 3 ≤ r.error_count)
    (n : Nat) : pin ∉ (get_next_unposted db n).map UnpostedRow.pin := by
  intro hmem
  obtain ⟨d, hd, hdpin⟩ := List.mem_map.mp hmem
  obtain ⟨row, hrow, helig, hrowd⟩ := mem_get_next_unposted hd
  have hrpin : r.pin = pin := by
    have := List.find?_some hr
    simpa using this
  have hrowpin : row.pin = pin := by rw [← hdpin, ← hrowd]; rfl
  have hrmem : r ∈ db.pins := List.mem_of_find?_eq_some hr
  have : row = r :=
    List.inj_on_of_nodup_map hnd hrow hrmem (by rw [hrowpin, hrpin])
  rw [this] at helig
  rw [not_eligible_of_terminal hterm] at helig
  exact Bool.false_ne_true helig

/-- `mark_posted` always appends exactly one history row for its
pin. -/
lemma countHist_mark_posted (db : PINDatabase) (pin post_id image_path : String) (now : Nat) :
    countHist (mark_posted db pin post_id image_path now).1 pin = countHist db pin + 1 := by
  simp [countHist, mark_posted, List.countP_append, List.countP_cons]

/-- `mark_posted` with a pin absent from the table leaves the `pins`
table unchanged (the `UPDATE` matches no row). -/
lemma pins_mark_posted_unknown (db : PINDatabase) (pin post_id image_path : String) (now : Nat)
    (hr : findRow db pin = none) :
    (mark_posted db pin post_id image_path now).1.pins = db.pins := by
  have hall : ∀ x ∈ db.pins, ¬((fun r : PinRow => r.pin == pin) x = true) :=
    List.find?_eq_none.mp hr
  show db.pins.map _ = db.pins
  rw [List.map_congr_left (fun a ha => ?_), List.map_id]
  have := hall a ha
  simp only [Bool.not_eq_true] at this
  simp [this]

/-- `SUM(CASE WHEN posted = 1 THEN 1 ELSE 0 END)` counts the posted
rows. -/
lemma sum_posted_eq_countP (l : List PinRow) :
    (l.map (fun r => if r.posted then (1 : Int) else 0)).sum =
      (l.countP (fun r => r.posted) : Int) := by
  induction l with
  | nil => simp
  | cons a l ih =>
    rw [List.map_cons, List.sum_cons, ih, List.countP_cons]
    by_cases h : a.posted <;> simp [h] <;> ring

/-- `SUM(CASE WHEN error_count >= 3 THEN 1 ELSE 0 END)` counts the
permanently failed rows. -/
lemma sum_failed_eq_countP (l : List PinRow) :
    (l.map (fun r => if 3 ≤ r.error_count then (1 : Int) else 0)).sum =
      (l.countP (fun r => decide (3 ≤ r.error_count)) : Int) := by
  induction l with
  | nil => simp
  | cons a l ih =>
    rw [List.map_cons, List.sum_cons, ih, List.countP_cons]
    by_cases h : 3 ≤ a.error_count <;> simp [h] <;> ring

/-- On a table with at least one row both sums are non-NULL and
`get_statistics` returns the counts with `remaining` computed by the
Python subtraction. -/
lemma get_statistics_ok (db : PINDatabase) (hne : db.pins ≠ []) :
    get_statistics db = .ok
      { total_pins := (db.pins.length : Int),
        posted_count := (db.pins.countP (fun r => r.posted) : Int),
        failed_count := (db.pins.countP (fun r => decide (3 ≤ r.error_count)) : Int),
        remaining := (db.pins.length : Int) -
          (db.pins.countP (fun r => r.posted) : Int) -
          (db.pins.countP (fun r => decide (3 ≤ r.error_count)) : Int) } := by
  rcases hp : db.pins with _ | ⟨a, l⟩
  · exact absurd hp hne
  · simp only [get_statistics, sqlSum, hp]
    rw [sum_posted_eq_countP (a :: l), sum_failed_eq_countP (a :: l)]

/-- After `add_pin` the row found for the pin is the freshly inserted
one with all processing-state columns at their defaults. -/
lemma findRow_add_pin (db : PINDatabase) (pin address : String) (lat lon : Option ℚ) :
    findRow (add_pin db pin address lat lon).1 pin =
      some { pin := pin, address := address, latitude := lat, longitude := lon,
             posted := false, post_date := none, error_count := 0, last_error := none } := by
  show (db.pins.filter (fun r : PinRow => !(r.pin == pin)) ++
      [({ pin := pin, address := address, latitude := lat, longitude := lon,
          posted := false, post_date := none, error_count := 0,
          last_error := none } : PinRow)]).find? (fun r => r.pin == pin) = _
  rw [List.find?_append]
  have h1 : (db.pins.filter (fun r : PinRow => !(r.pin == pin))).find?
      (fun r => r.pin == pin) = none := by
    rw [List.find?_eq_none]
    intro x hx
    have := (List.mem_filter.mp hx).2
    simp only [Bool.not_eq_true'] at this
    simp [this]
  rw [h1]
  simp [List.find?_cons]

/-- Two saved-image paths with the same directory and pin agree only
when their formatted timestamps agree: the fixed affixes cancel. -/
lemma image_save_path_inj {save_dir pin : String} {t1 t2 : PyDatetime}
    (h : image_save_path save_dir pin t1 = image_save_path save_dir pin t2) :
    strftimeCompact t1 = strftimeCompact t2 := by
  have h2 := congrArg String.data h
  simp only [image_save_path, image_filename, String.data_append, List.append_assoc] at h2
  have h3 := List.append_cancel_left h2
  have h4 := List.append_cancel_left h3
  have h5 := List.append_cancel_left h4
  have h6 := List.append_cancel_left h5
  exact String.ext (List.append_cancel_right h6)

end ChicagoLots

namespace ChicagoLots

/-- Claim C1, counterexample: a second `mark_posted` for the same pin
does not fail — it returns success and the store then holds two
`post_history` rows for that pin, contradicting the claimed
`PersistenceError` and the one-entry bound. -/
theorem mark_posted_duplicate_cex :
    (mark_posted (mark_posted exampleStore1 "A" "u1" "p1" 5).1 "A" "u2" "p2" 6).2 = true ∧
    countHist (mark_posted (mark_posted exampleStore1 "A" "u1" "p1" 5).1 "A" "u2" "p2" 6).1 "A" = 2 := by
  exact ⟨rfl, by decide⟩

/-- Claim C1, as amended: for every store, `mark_posted` succeeds
unconditionally (absent storage I/O failure) — it returns `True`,
appends exactly one new history entry for the pin on every call (so
the per-pin history count equals the number of calls and is not capped
at 1), and for an unknown pin it still appends while leaving the
`pins` table unchanged. -/
theorem mark_posted_unconditional (db : PINDatabase) (pin post_id image_path : String) (now : Nat) :
    (mark_posted db pin post_id image_path now).2 = true ∧
    countHist (mark_posted db pin post_id image_path now).1 pin = countHist db pin + 1 ∧
    (findRow db pin = none → (mark_posted db pin post_id image_path now).1.pins = db.pins) :=
  ⟨rfl, countHist_mark_posted db pin post_id image_path now,
    fun h => pins_mark_posted_unknown db pin post_id image_path now h⟩

/-- Witness for C1: `mark_posted` on the unknown pin "ZZ" succeeds,
adds a history row, and leaves the `pins` table untouched. -/
theorem mark_posted_unconditional_witness :
    (mark_posted exampleStore1 "ZZ" "u" "p" 7).2 = true ∧
    countHist (mark_posted exampleStore1 "ZZ" "u" "p" 7).1 "ZZ" = countHist exampleStore1 "ZZ" + 1 ∧
    (mark_posted exampleStore1 "ZZ" "u" "p" 7).1.pins = exampleStore1.pins := by
  have h := mark_posted_unconditional exampleStore1 "ZZ" "u" "p" 7
  exact ⟨h.1, h.2.1, h.2.2 (by decide)⟩

/-- Claim C2, counterexample: after `mark_posted` the record is in
terminal success, but re-importing the same pin with `add_pin`
(`INSERT OR REPLACE`) resets `posted` to false and the record is
returned by `get_next_unposted` again — so over arbitrary store
operations the terminal states are not one-way. -/
theorem add_pin_breaks_monotonicity_cex :
    ((findRow (mark_posted exampleStore1 "A" "u1" "p1" 5).1 "A").map PinRow.posted = some true) ∧
    ((findRow (add_pin (mark_posted exampleStore1 "A" "u1" "p1" 5).1 "A" "1 A St" none none).1 "A").map
        PinRow.posted = some false) ∧
    "A" ∈ (get_next_unposted
        (add_pin (mark_posted exampleStore1 "A" "u1" "p1" 5).1 "A" "1 A St" none none).1 1).map
        UnpostedRow.pin := by
  refine ⟨by decide, by decide, by decide⟩

/-- Claim C2, as amended: restricted to sequences of the two
outcome-recording operations (`mark_posted` / `record_error`), the
transitions are one-way — for a store with distinct pins, a record in
terminal state (posted, or `error_count ≥ 3`) stays findable with
`posted` never reverting, `error_count` never decreasing, the terminal
state preserved, and the pin never again returned by
`get_next_unposted`. The `add_pin` re-import path is excluded, as the
counterexample forces. -/
theorem eligibility_monotonic (db : PINDatabase) (ops : List StoreOp) (pin : String) (r : PinRow)
    (hnd : (db.pins.map PinRow.pin).Nodup)
    (hops : ∀ op ∈ ops, op.isRecordOp = true)
    (hr : findRow db pin = some r)
    (hterm : r.posted = true ∨ 3 ≤ r.error_count) :
    ∃ r2, findRow (applyOps db ops) pin = some r2 ∧
      r.error_count ≤ r2.error_count ∧
      (r.posted = true → r2.posted = true) ∧
      (r2.posted = true ∨ 3 ≤ r2.error_count) ∧
      ∀ n, pin ∉ (get_next_unposted (applyOps db ops) n).map UnpostedRow.pin := by
  obtain ⟨r2, hr2, hpin2, hec2, hpost2⟩ := findRow_applyOps_record ops db pin r hops hr
  have hterm2 : r2.posted = true ∨ 3 ≤ r2.error_count := by
    rcases hterm with hp | he
    · exact Or.inl (hpost2 hp)
    · exact Or.inr (he.trans hec2)
  have hnd2 := nodup_pins_applyOps_record ops db hops hnd
  exact ⟨r2, hr2, hec2, hpost2, hterm2,
    fun n => terminal_not_in_unposted hnd2 hr2 hterm2 n⟩

/-- Witness for C2: the posted record "A" is still excluded from
batches after a further `record_error`. -/
theorem eligibility_monotonic_witness :
    "A" ∉ (get_next_unposted
        (applyOps exampleStoreTerminal [StoreOp.recordError "A" "network down"]) 5).map
        UnpostedRow.pin := by
  obtain ⟨r2, -, -, -, -, hn⟩ := eligibility_monotonic exampleStoreTerminal
    [StoreOp.recordError "A" "network down"] "A" rowPosted
    (by decide) (by decide) (by decide) (Or.inl (by decide))
  exact hn 5

/-- Claim C3, confirmed: `get_next_unposted` returns at most `n`
dictionaries, each projected from a table row with `posted = 0` and
`error_count < 3`, in ascending pin order, and they are the smallest
eligible pins (every eligible row left out has a strictly larger pin);
in particular on a store with eligible pins C, A, B the batch of 2 is
exactly [A, B]. -/
theorem get_next_unposted_spec (db : PINDatabase) (n : Nat) :
    (get_next_unposted db n).length ≤ n ∧
    (∀ d ∈ get_next_unposted db n,
      ∃ r, r ∈ db.pins ∧ r.posted = false ∧ r.error_count < 3 ∧ toUnposted r = d) ∧
    List.Sorted (· ≤ ·) ((get_next_unposted db n).map (fun d => d.pin.data)) ∧
    (∀ r ∈ db.pins, r.posted = false → r.error_count < 3 →
      r.pin ∉ (get_next_unposted db n).map UnpostedRow.pin →
      ∀ d ∈ get_next_unposted db n, d.pin.data < r.pin.data) ∧
    (get_next_unposted exampleStore3 2).map UnpostedRow.pin = ["A", "B"] := by
  refine ⟨length_get_next_unposted db n, ?_, sorted_get_next_unposted db n, ?_, by decide⟩
  · intro d hd
    obtain ⟨r, hr, helig, hrd⟩ := mem_get_next_unposted hd
    have := (eligibleRow_iff r).mp helig
    exact ⟨r, hr, this.1, this.2, hrd⟩
  · intro r hr hp he hnotin d hd
    exact smallest_get_next_unposted hr ((eligibleRow_iff r).mpr ⟨hp, he⟩) hnotin hd

/-- Witness for C3 at the concrete three-row store. -/
theorem get_next_unposted_spec_witness :
    (get_next_unposted exampleStore3 2).length ≤ 2 ∧
    List.Sorted (· ≤ ·) ((get_next_unposted exampleStore3 2).map (fun d => d.pin.data)) := by
  have h := get_next_unposted_spec exampleStore3 2
  exact ⟨h.1, h.2.2.1⟩

/-- Claim C4, confirmed: against a geocoder that times out on every
call, `get_location` with 3 retries performs exactly 3 geocode
attempts, sleeps `2 ^ attempt` seconds after each timeout (the
attempt-indexed doubling backoff, so the delays between consecutive
attempts are 1 and then 2), returns no location, and emits the failure
signal carrying the address and the attempt count (the code signals
this failure by logging that pair and returning `None`). -/
theorem get_location_timeout_bound (address : String) :
    get_location (fun _ => GeoOutcome.timedOut) address 3 =
      { result := none, attempts := 3, sleeps := [2 ^ 0, 2 ^ 1, 2 ^ 2],
        failure_log := some (address, 3) } := rfl

/-- Claim C5, counterexample: a batch whose first record fails image
acquisition produces no pacing pause between that record and the next
— the `continue` jumps straight to the second record, and the
first record's trace contains no sleep at all. -/
theorem image_failure_skips_sleep_cex :
    processBatch [("P1", RecOutcome.imageFailure "Geocoding failed"),
        ("P2", RecOutcome.postSuccess "u" "p")] 30 =
      [.recordError "P1" "Geocoding failed", .markPosted "P2" "u" "p", .sleepFor 30] ∧
    hasSleep (processRecord "P1" (RecOutcome.imageFailure "Geocoding failed") 30) = false :=
  ⟨rfl, rfl⟩

/-- Claim C5, as amended: the loop pauses for the inter-post delay
after each record — as the last step of the record's processing —
except when the record fails at image acquisition, where `continue`
skips the delay entirely. -/
theorem processRecord_sleep_policy (pin : String) (outcome : RecOutcome) (interval : Nat) :
    hasSleep (processRecord pin outcome interval) = !outcome.isImageFailure ∧
    (outcome.isImageFailure = false →
      (processRecord pin outcome interval).getLast? = some (.sleepFor interval)) := by
  cases outcome with
  | imageFailure msg => exact ⟨rfl, fun h => by simp [RecOutcome.isImageFailure] at h⟩
  | postFailure => exact ⟨rfl, fun _ => rfl⟩
  | postSuccess uri path => exact ⟨rfl, fun _ => rfl⟩
  | unexpectedExn msg => exact ⟨rfl, fun _ => rfl⟩

/-- Witness for C5: a record that failed at the publish step does end
with the pacing pause. -/
theorem processRecord_sleep_policy_witness :
    hasSleep (processRecord "P2" RecOutcome.postFailure 30) = true ∧
    (processRecord "P2" RecOutcome.postFailure 30).getLast? = some (.sleepFor 30) := by
  have h := processRecord_sleep_policy "P2" RecOutcome.postFailure 30
  exact ⟨h.1, h.2 rfl⟩

/-- Claim C6, confirmed: with a valid session, when the image upload
returns no blob the `post` call still submits the record — text-only,
with no embed — and returns the platform-assigned URI; no upload
failure surfaces to the caller (the code logs a warning and proceeds). -/
theorem post_upload_failure_degrades (token now text p uri : String) (auth_succeeds : Bool) :
    post (some token) auth_succeeds (fun _ => none) (fun _ => some uri) now text (some p) =
      .completed (some uri) { text := text, createdAt := now, embed := none } := rfl

/-- Claim C7, counterexample: the empty store is reachable by the
empty sequence of record operations, and there `get_statistics` does
not return a statistics dictionary — the NULL sums make the Python
subtraction raise `TypeError`. -/
theorem statistics_empty_store_cex :
    get_statistics (applyOps { pins := [], post_history := [] } []) = .error .typeError := rfl

/-- Claim C7, as amended: for every store reachable by a sequence of
outcome-recording operations and containing at least one record,
`get_statistics` returns `remaining = total - posted_count -
failed_count` where `posted_count` counts rows with `posted` set and
`failed_count` counts rows with `error_count ≥ 3`; the function reads
the store and returns only the aggregate (in this embedding it takes
the store and produces no new store, so it has no side effects). The
empty store must be excluded, as the counterexample forces. -/
theorem statistics_consistent (db0 : PINDatabase) (ops : List StoreOp)
    (hops : ∀ op ∈ ops, op.isRecordOp = true)
    (hne : (applyOps db0 ops).pins ≠ []) :
    get_statistics (applyOps db0 ops) = .ok
      { total_pins := ((applyOps db0 ops).pins.length : Int),
        posted_count := ((applyOps db0 ops).pins.countP (fun r => r.posted) : Int),
        failed_count := ((applyOps db0 ops).pins.countP (fun r => decide (3 ≤ r.error_count)) : Int),
        remaining := ((applyOps db0 ops).pins.length : Int) -
          ((applyOps db0 ops).pins.countP (fun r => r.posted) : Int) -
          ((applyOps db0 ops).pins.countP (fun r => decide (3 ≤ r.error_count)) : Int) } :=
  get_statistics_ok (applyOps db0 ops) hne

/-- Witness for C7: one record, one recorded error, statistics read
1 total, 0 posted, 0 permanently failed, 1 remaining. -/
theorem statistics_consistent_witness :
    get_statistics (applyOps exampleStore1 [StoreOp.recordError "A" "boom"]) =
      .ok { total_pins := 1, posted_count := 0, failed_count := 0, remaining := 1 } := by
  have h := statistics_consistent exampleStore1 [StoreOp.recordError "A" "boom"]
    (by decide) (by decide)
  exact h.trans rfl

/-- Claim C8, counterexample: two distinct acquisition instants inside
the same wall-clock second (they differ in the microsecond field that
`datetime.now()` carries) produce the same saved-image path, because
`strftime('%Y%m%d_%H%M%S')` has second resolution — so repeated
acquisitions for the same record can collide. -/
theorem same_second_collision_cex :
    sameSecondEarly ≠ sameSecondLate ∧
    image_save_path "images" "P1" sameSecondEarly = image_save_path "images" "P1" sameSecondLate :=
  ⟨by decide, rfl⟩

/-- Claim C8, as amended: the saved-image filename is derived from the
record identifier and the creation timestamp, and two acquisitions for
the same record collide exactly as their formatted timestamps do —
acquisitions whose creation timestamps differ at second granularity
write to distinct paths; only same-second acquisitions collide, as the
counterexample forces. -/
theorem image_save_path_distinct_seconds (save_dir pin : String) (t1 t2 : PyDatetime)
    (h : strftimeCompact t1 ≠ strftimeCompact t2) :
    image_save_path save_dir pin t1 ≠ image_save_path save_dir pin t2 :=
  fun heq => h (image_save_path_inj heq)

/-- Witness for C8: acquisitions one second apart get distinct
paths. -/
theorem image_save_path_distinct_seconds_witness :
    image_save_path "images" "P1" sameSecondEarly ≠
      image_save_path "images" "P1" ⟨2024, 1, 1, 12, 0, 1, 0⟩ :=
  image_save_path_distinct_seconds "images" "P1" sameSecondEarly ⟨2024, 1, 1, 12, 0, 1, 0⟩
    (by decide)

/-- Claim C9, confirmed: re-importing an existing pin with `add_pin`
(`INSERT OR REPLACE`) replaces the whole row — the row found for the
pin afterwards has `posted` reset to false, `post_date` and
`last_error` NULL, and `error_count` 0, regardless of the previous
processing state — and that fresh row is eligible again. -/
theorem add_pin_replaces_row (db : PINDatabase) (pin address : String) (lat lon : Option ℚ)
    (r : PinRow) (_hr : findRow db pin = some r) :
    findRow (add_pin db pin address lat lon).1 pin =
      some { pin := pin, address := address, latitude := lat, longitude := lon,
             posted := false, post_date := none, error_count := 0, last_error := none } ∧
    eligibleRow { pin := pin, address := address, latitude := lat, longitude := lon,
                  posted := false, post_date := none, error_count := 0,
                  last_error := none } = true :=
  ⟨findRow_add_pin db pin address lat lon, rfl⟩

/-- Witness for C9: re-importing the posted record "A" resets it to a
fresh eligible row. -/
theorem add_pin_replaces_row_witness :
    findRow (add_pin exampleStoreTerminal "A" "1 A St" none none).1 "A" =
      some { pin := "A", address := "1 A St", latitude := none, longitude := none,
             posted := false, post_date := none, error_count := 0, last_error := none } ∧
    eligibleRow { pin := "A", address := "1 A St", latitude := none, longitude := none,
                  posted := false, post_date := none, error_count := 0,
                  last_error := none } = true :=
  add_pin_replaces_row exampleStoreTerminal "A" "1 A St" none none rowPosted (by decide)

/-- Claim C10, confirmed: on a store with zero property records (any
history content) `get_statistics` does not return a statistics
dictionary: the SQL sums are NULL, the Python subtraction raises
`TypeError`, and the handler — which catches only `sqlite3.Error` —
lets it propagate. -/
theorem get_statistics_empty_raises (h : List HistoryRow) :
    get_statistics { pins := [], post_history := h } = .error .typeError := rfl

end ChicagoLots
